import Mathlib

/-!
Shallow embedding of `src/test2.py`, a polling breakout trading bot.

Prices and amounts are modelled as rationals (`ℚ`): the Python script uses
floats, and the claims under study are about the arithmetic relations the
code writes down, not about binary rounding of IEEE floats.  Wall-clock
timestamps and date strings are omitted from the records: no claim depends
on them.  External effects (Telegram messages, `time.sleep`) are modelled
as an explicit `Effect` list where a claim mentions them.

Market data comes from `ccxt`'s `fetch_ohlcv`, whose rows are
`[timestamp, open, high, low, close, volume]`; `Candle` names those six
components, so the `c[2]` / `c[3]` subscripts of `get_high_low` are the
`high` and `low` fields.
-/

/-- Direction of a trade: the `trade_type` strings LONG / SHORT in the script. -/
inductive Dir where
  | LONG : Dir
  | SHORT : Dir
deriving DecidableEq, Repr

/-- How a position was entered: the retracement branch or the chasing branch of
`monitor_market`. -/
inductive EntryKind where
  | retracement : EntryKind
  | chase : EntryKind
deriving DecidableEq, Repr

/-- One OHLCV row as returned by `ccxt.fetch_ohlcv`:
`[timestamp, open, high, low, close, volume]` (indices 0..5). -/
structure Candle where
  ts : ℤ
  opn : ℚ
  high : ℚ
  low : ℚ
  close : ℚ
  volume : ℚ
deriving DecidableEq, Repr

/-- A record appended to `trade_log.json` by `log_trade` (the wall-clock
`time` field is omitted). -/
structure TradeRecord where
  entry_price : ℚ
  exit_price : ℚ
  trade_type : Dir
  profit_loss : ℚ
  reason : String
deriving DecidableEq, Repr

/-- A summary object appended to `monthly_profit_loss.json` by
`generate_summary` (the wall-clock date fields are omitted). -/
structure SummaryData where
  total_profit_loss : ℚ
  trade_count : ℕ
  trades : List TradeRecord
deriving DecidableEq, Repr

/-- The persistent file state of the bot: the live trade log array and the
summary archive. -/
structure BotState where
  trade_log : List TradeRecord
  archive : List SummaryData
deriving DecidableEq, Repr

/-- An external side effect performed by the script. -/
inductive Effect where
  | notify : String → Effect
  | sleep : ℕ → Effect
deriving DecidableEq, Repr

/-- Constant `TRADE_AMOUNT = 0.01` from the script. -/
def TRADE_AMOUNT : ℚ := 1 / 100

/-- Constant `COOLDOWN_PERIOD = 15 * 60` from the script. -/
def COOLDOWN_PERIOD : ℕ := 15 * 60

/-- Round a rational to the nearest integer, ties to even: the behaviour of
Python's builtin `round` on exact halves. -/
def roundHalfEven (q : ℚ) : ℤ :=
  if q - (⌊q⌋ : ℚ) < 1 / 2 then ⌊q⌋
  else if 1 / 2 < q - (⌊q⌋ : ℚ) then ⌊q⌋ + 1
  else if ⌊q⌋ % 2 = 0 then ⌊q⌋ else ⌊q⌋ + 1

/-- Python's `round(x, 4)`: round to 4 decimal places. -/
def round4 (q : ℚ) : ℚ := (roundHalfEven (q * 10000) : ℚ) / 10000

/-- Embeds `log_trade` (src/test2.py lines 76-95): builds the trade record,
with `profit_loss = round((exit - entry) * TRADE_AMOUNT, 4)` for LONG and
`round((entry - exit) * TRADE_AMOUNT, 4)` for SHORT, and appends it to the
live trade log. -/
def log_trade (entry_price exit_price : ℚ) (trade_type : Dir) (reason : String) :
    TradeRecord :=
  { entry_price := entry_price
    exit_price := exit_price
    trade_type := trade_type
    profit_loss :=
      match trade_type with
      | Dir.LONG => round4 ((exit_price - entry_price) * TRADE_AMOUNT)
      | Dir.SHORT => round4 ((entry_price - exit_price) * TRADE_AMOUNT)
    reason := reason }

/-- Embeds `get_high_low` (src/test2.py lines 58-64): `(None, None)` on an
empty candle list, otherwise `max(c[2] for c in candles)` and
`min(c[3] for c in candles)` — the max of the highs and the min of the lows. -/
def get_high_low (candles : List Candle) : Option ℚ × Option ℚ :=
  match candles with
  | [] => (none, none)
  | c :: cs =>
      (some ((cs.map Candle.high).foldl max c.high),
       some ((cs.map Candle.low).foldl min c.low))

/-- Embeds `fetch_candles` (src/test2.py lines 48-56).  `oracle i` is the
outcome of attempt `i` of `kraken.fetch_ohlcv` (`none` = exception raised).
Returns the fetched list (empty after 3 failures), the number of attempts
made, and the `time.sleep(5)` effects performed (one after each failed
attempt, the loop body ends with the sleep). -/
def fetch_candles (oracle : ℕ → Option (List Candle)) :
    List Candle × ℕ × List Effect :=
  match oracle 0 with
  | some r => (r, 1, [])
  | none =>
      match oracle 1 with
      | some r => (r, 2, [Effect.sleep 5])
      | none =>
          match oracle 2 with
          | some r => (r, 3, [Effect.sleep 5, Effect.sleep 5])
          | none => ([], 3, [Effect.sleep 5, Effect.sleep 5, Effect.sleep 5])

/-- Embeds `get_current_price` (src/test2.py lines 66-74), same retry shape as
`fetch_candles`; yields `none` after 3 failed attempts. -/
def get_current_price (oracle : ℕ → Option ℚ) :
    Option ℚ × ℕ × List Effect :=
  match oracle 0 with
  | some r => (some r, 1, [])
  | none =>
      match oracle 1 with
      | some r => (some r, 2, [Effect.sleep 5])
      | none =>
          match oracle 2 with
          | some r => (some r, 3, [Effect.sleep 5, Effect.sleep 5])
          | none => (none, 3, [Effect.sleep 5, Effect.sleep 5, Effect.sleep 5])

/-- A position entry performed by `monitor_market`: direction, entry price
(the current price at the entering tick), the initial stop-loss passed to
`trailing_stop_loss`, and which branch fired. -/
structure EntryEvent where
  dir : Dir
  price : ℚ
  stop : ℚ
  kind : EntryKind
deriving DecidableEq, Repr

/-- Embeds the `if entry_signal is None:` block of `monitor_market`
(src/test2.py lines 144-150): from the WATCHING state, `price > high` sets a
LONG signal and `price < low` a SHORT one; an existing signal is kept. -/
def signalStep (high low : ℚ) (signal : Option Dir) (price : ℚ) : Option Dir :=
  match signal with
  | none =>
      if high < price then some Dir.LONG
      else if price < low then some Dir.SHORT
      else none
  | some d => some d

/-- Embeds the `if entry_signal:` block of `monitor_market` (src/test2.py
lines 152-172): the four entry branches, in source order, each recording the
initial stop-loss the code passes to `trailing_stop_loss` (`low` on the LONG
branches, `high` on the SHORT branches); `none` when no branch fires and the
loop continues. -/
def entryDecision (high low : ℚ) (signal : Option Dir) (price : ℚ) :
    Option EntryEvent :=
  match signal with
  | none => none
  | some Dir.LONG =>
      if low < price ∧ price < high then
        some ⟨Dir.LONG, price, low, EntryKind.retracement⟩
      else if high < price then
        some ⟨Dir.LONG, price, low, EntryKind.chase⟩
      else none
  | some Dir.SHORT =>
      if low < price ∧ price < high then
        some ⟨Dir.SHORT, price, high, EntryKind.retracement⟩
      else if price < low then
        some ⟨Dir.SHORT, price, high, EntryKind.chase⟩
      else none

/-- One iteration of the monitoring `while True:` loop of `monitor_market`
(src/test2.py lines 137-172): a failed price fetch (`none`) skips the tick
with the signal state unchanged; otherwise the signal is updated and the
entry branches are checked against the same price in the same iteration. -/
def monitorTick (high low : ℚ) (signal : Option Dir) (price : Option ℚ) :
    Option Dir × Option EntryEvent :=
  match price with
  | none => (signal, none)
  | some p =>
      let s := signalStep high low signal p
      (s, entryDecision high low s p)

/-- The monitoring loop of `monitor_market` run over a finite list of price
ticks (`none` = fetch failure on that tick).  Returns the final signal state
and the entry event if one of the entry branches fired (the loop `break`s on
entry; an exhausted tick list models a loop still waiting). -/
def monitorRun (high low : ℚ) (signal : Option Dir) :
    List (Option ℚ) → Option Dir × Option EntryEvent
  | [] => (signal, none)
  | p :: ps =>
      match monitorTick high low signal p with
      | (s, some ev) => (s, some ev)
      | (s, none) => monitorRun high low s ps

/-- One iteration of the `while True:` loop of `trailing_stop_loss`
(src/test2.py lines 99-123) on a successfully fetched price: returns the
updated stop and whether the exit condition fired against that updated stop. -/
def trailingStep (entry_price stop_loss : ℚ) (trade_type : Dir) (p : ℚ) :
    ℚ × Bool :=
  match trade_type with
  | Dir.LONG =>
      let s1 := if entry_price * (101 / 100) < p
        then max stop_loss (entry_price * (1005 / 1000)) else stop_loss
      let s2 := if entry_price * (102 / 100) < p
        then max s1 (entry_price * (101 / 100)) else s1
      (s2, decide (p < s2))
  | Dir.SHORT =>
      let s1 := if p < entry_price * (99 / 100)
        then min stop_loss (entry_price * (995 / 1000)) else stop_loss
      let s2 := if p < entry_price * (98 / 100)
        then min s1 (entry_price * (99 / 100)) else s1
      (s2, decide (s2 < p))

/-- The `trailing_stop_loss` loop run over a finite list of price ticks
(`none` = fetch failure, `continue`).  Returns the final stop-loss and the
trade record logged on exit (`none` if the tick list ran out first). -/
def trailing_stop_loss (entry_price stop_loss : ℚ) (trade_type : Dir) :
    List (Option ℚ) → ℚ × Option TradeRecord
  | [] => (stop_loss, none)
  | none :: ps => trailing_stop_loss entry_price stop_loss trade_type ps
  | some p :: ps =>
      match trailingStep entry_price stop_loss trade_type p with
      | (s, true) =>
          (s, some (log_trade entry_price p trade_type "Trailing Stop Loss Hit"))
      | (s, false) => trailing_stop_loss entry_price s trade_type ps

/-- Embeds `monitor_market` (src/test2.py lines 125-172) as one full cycle:
compute the band from the fetched candles, return immediately when the band
is `None` (no candles), otherwise run the monitoring loop from
`entry_signal = None`; on entry, run `trailing_stop_loss` from the entry
price and the initial stop the branch passed.  Returns the entry event (if
any) and the list of trade records appended during the cycle. -/
def monitor_market (candles : List Candle) (signalTicks trailTicks : List (Option ℚ)) :
    Option EntryEvent × List TradeRecord :=
  match get_high_low candles with
  | (some high, some low) =>
      match monitorRun high low none signalTicks with
      | (_, some ev) =>
          match trailing_stop_loss ev.price ev.stop ev.dir trailTicks with
          | (_, some rec) => (some ev, [rec])
          | (_, none) => (some ev, [])
      | (_, none) => (none, [])
  | _ => (none, [])

/-- Embeds `generate_summary` (src/test2.py lines 174-198): sum the
`profit_loss` of the trades in the live log, build the summary with the
trade count and the trades, append it to the archive, reset the live log to
an empty array, and notify. -/
def generate_summary (st : BotState) : BotState × SummaryData × List Effect :=
  let trades := st.trade_log
  let total := (trades.map TradeRecord.profit_loss).sum
  let summary : SummaryData :=
    { total_profit_loss := total
      trade_count := trades.length
      trades := trades }
  ({ trade_log := [], archive := st.archive ++ [summary] },
   summary,
   [Effect.notify "30-day report. Logs reset."])

/-- One iteration of the `while True:` loop of `main` (src/test2.py lines
204-214).  `body` is the outcome of the `try:` block: the effects it
performed, paired with `some e` when it raised an exception with text `e`
(the effects already performed before the raise are kept).  The `except`
clause sends the crash notification and sleeps 10 seconds.  The returned
`Bool` is whether control reaches the next loop iteration. -/
def main_iter (body : List Effect × Option String) : List Effect × Bool :=
  match body with
  | (effs, none) => (effs, true)
  | (effs, some e) =>
      (effs ++ [Effect.notify ("Bot crashed: " ++ e ++ ". Restarting..."),
                Effect.sleep 10],
       true)

/-! Helper lemmas about folded maxima and minima, used for the Range Detector. -/

theorem init_le_foldl_max : ∀ (l : List ℚ) (a : ℚ), a ≤ l.foldl max a
  | [], _ => le_refl _
  | b :: t, a => le_trans (le_max_left a b) (init_le_foldl_max t (max a b))

theorem mem_le_foldl_max : ∀ (l : List ℚ) (a x : ℚ), x ∈ l → x ≤ l.foldl max a
  | b :: t, a, x, h => by
      rcases List.mem_cons.mp h with rfl | h2
      · exact le_trans (le_max_right a x) (init_le_foldl_max t (max a x))
      · exact mem_le_foldl_max t (max a b) x h2

theorem foldl_max_choice : ∀ (l : List ℚ) (a : ℚ), l.foldl max a = a ∨ l.foldl max a ∈ l
  | [], _ => Or.inl rfl
  | b :: t, a => by
      rcases foldl_max_choice t (max a b) with h | h
      · rcases max_choice a b with h2 | h2
        · left; rw [List.foldl_cons, h, h2]
        · right; rw [List.foldl_cons, h, h2]; exact List.mem_cons_self b t
      · right; exact List.mem_cons_of_mem b h

theorem foldl_min_le_init : ∀ (l : List ℚ) (a : ℚ), l.foldl min a ≤ a
  | [], _ => le_refl _
  | b :: t, a => le_trans (foldl_min_le_init t (min a b)) (min_le_left a b)

theorem foldl_min_le_mem : ∀ (l : List ℚ) (a x : ℚ), x ∈ l → l.foldl min a ≤ x
  | b :: t, a, x, h => by
      rcases List.mem_cons.mp h with rfl | h2
      · exact le_trans (foldl_min_le_init t (min a x)) (min_le_right a x)
      · exact foldl_min_le_mem t (min a b) x h2

theorem foldl_min_choice : ∀ (l : List ℚ) (a : ℚ), l.foldl min a = a ∨ l.foldl min a ∈ l
  | [], _ => Or.inl rfl
  | b :: t, a => by
      rcases foldl_min_choice t (min a b) with h | h
      · rcases min_choice a b with h2 | h2
        · left; rw [List.foldl_cons, h, h2]
        · right; rw [List.foldl_cons, h, h2]; exact List.mem_cons_self b t
      · right; exact List.mem_cons_of_mem b h

/-- Claim C4: `get_high_low` returns `(none, none)` exactly on an empty candle
list; on a non-empty list it returns `(some hi, some lo)` where `hi` bounds
every candle's high from above and is attained, and `lo` bounds every
candle's low from below and is attained — the max of the highs and the min of
the lows. -/
theorem get_high_low_bounds (candles : List Candle) :
    (get_high_low candles = (none, none) ↔ candles = []) ∧
    (∀ hi lo, get_high_low candles = (some hi, some lo) →
      (∀ c ∈ candles, c.high ≤ hi ∧ lo ≤ c.low) ∧
      (∃ c ∈ candles, c.high = hi) ∧ (∃ c ∈ candles, c.low = lo)) := by
  cases candles with
  | nil =>
      refine ⟨by simp [get_high_low], ?_⟩
      intro hi lo h
      simp [get_high_low] at h
  | cons c cs =>
      refine ⟨by simp [get_high_low], ?_⟩
      intro hi lo h
      simp only [get_high_low, Prod.mk.injEq, Option.some.injEq] at h
      obtain ⟨hhi, hlo⟩ := h
      refine ⟨?_, ?_, ?_⟩
      · intro x hx
        rcases List.mem_cons.mp hx with rfl | hx2
        · exact ⟨hhi ▸ init_le_foldl_max (cs.map Candle.high) x.high,
                 hlo ▸ foldl_min_le_init (cs.map Candle.low) x.low⟩
        · refine ⟨hhi ▸ mem_le_foldl_max (cs.map Candle.high) c.high x.high ?_,
                  hlo ▸ foldl_min_le_mem (cs.map Candle.low) c.low x.low ?_⟩
          · exact List.mem_map_of_mem Candle.high hx2
          · exact List.mem_map_of_mem Candle.low hx2
      · rcases foldl_max_choice (cs.map Candle.high) c.high with h2 | h2
        · exact ⟨c, List.mem_cons_self c cs, by rw [← hhi, h2]⟩
        · obtain ⟨x, hx, hx2⟩ := List.mem_map.mp h2
          exact ⟨x, List.mem_cons_of_mem c hx, by rw [← hhi, hx2]⟩
      · rcases foldl_min_choice (cs.map Candle.low) c.low with h2 | h2
        · exact ⟨c, List.mem_cons_self c cs, by rw [← hlo, h2]⟩
        · obtain ⟨x, hx, hx2⟩ := List.mem_map.mp h2
          exact ⟨x, List.mem_cons_of_mem c hx, by rw [← hlo, hx2]⟩

/-- Witness for C4 on a concrete two-candle list: the returned band bounds
both candles and both bounds are attained. -/
theorem get_high_low_bounds_witness :
    (∀ c ∈ [(⟨0, 3, 5, 2, 4, 1⟩ : Candle), ⟨1, 4, 7, 1, 3, 1⟩], c.high ≤ 7 ∧ 1 ≤ c.low) ∧
    (∃ c ∈ [(⟨0, 3, 5, 2, 4, 1⟩ : Candle), ⟨1, 4, 7, 1, 3, 1⟩], c.high = 7) ∧
    (∃ c ∈ [(⟨0, 3, 5, 2, 4, 1⟩ : Candle), ⟨1, 4, 7, 1, 3, 1⟩], c.low = 1) :=
  (get_high_low_bounds [⟨0, 3, 5, 2, 4, 1⟩, ⟨1, 4, 7, 1, 3, 1⟩]).2 7 1 (by decide)

/-! Helper lemmas about the rounding used by `log_trade`. -/

theorem roundHalfEven_close (q : ℚ) : |(roundHalfEven q : ℚ) - q| ≤ 1 / 2 := by
  have h1 : (⌊q⌋ : ℚ) ≤ q := Int.floor_le q
  have h2 : q < (⌊q⌋ : ℚ) + 1 := Int.lt_floor_add_one q
  unfold roundHalfEven
  rw [abs_le]
  split_ifs <;> constructor <;> push_cast <;> linarith

theorem round4_close (q : ℚ) : |round4 q - q| ≤ 1 / 20000 := by
  have h := roundHalfEven_close (q * 10000)
  unfold round4
  have h2 : (roundHalfEven (q * 10000) : ℚ) / 10000 - q =
      ((roundHalfEven (q * 10000) : ℚ) - q * 10000) / 10000 := by ring
  rw [h2, abs_div]
  rw [show |(10000 : ℚ)| = 10000 by norm_num]
  rw [div_le_iff₀ (by norm_num)]
  linarith

theorem round4_grid (q : ℚ) : ∃ n : ℤ, round4 q = (n : ℚ) / 10000 :=
  ⟨roundHalfEven (q * 10000), rfl⟩

/-- Counterexample for C3: at entry 100 and exit 100 + 1/200, the recorded
LONG profit_loss is the rounded value 0, not the exact
`(exit - entry) * TRADE_AMOUNT = 1/20000`. -/
theorem profit_loss_not_exact_formula :
    (log_trade 100 (100 + 1 / 200) Dir.LONG "Trailing Stop Loss Hit").profit_loss ≠
      ((100 + 1 / 200 : ℚ) - 100) * TRADE_AMOUNT := by
  have h : (log_trade 100 (100 + 1 / 200) Dir.LONG "Trailing Stop Loss Hit").profit_loss = 0 := by
    show round4 ((100 + 1 / 200 - 100) * TRADE_AMOUNT) = 0
    norm_num [round4, roundHalfEven, TRADE_AMOUNT]
  rw [h, TRADE_AMOUNT]
  norm_num

/-- Claim C3 (amended): for every entry and exit price, the recorded
profit_loss is `(exit - entry) * TRADE_AMOUNT` for LONG and
`(entry - exit) * TRADE_AMOUNT` for SHORT, rounded to 4 decimal places. -/
theorem profit_loss_is_rounded_formula (entry exit : ℚ) (ty : Dir) (reason : String) :
    (log_trade entry exit ty reason).profit_loss =
      (if ty = Dir.LONG then round4 ((exit - entry) * TRADE_AMOUNT)
       else round4 ((entry - exit) * TRADE_AMOUNT)) := by
  cases ty <;> simp [log_trade]

/-- Claim C10: the profit_loss stored by `log_trade` is rounded to 4 decimal
places: it lies on the grid of integer multiples of 1/10000, and differs from
the exact LONG/SHORT formula by at most half a grid step. -/
theorem profit_loss_rounded_to_4_decimals (entry exit : ℚ) (ty : Dir) (reason : String) :
    (∃ n : ℤ, (log_trade entry exit ty reason).profit_loss = (n : ℚ) / 10000) ∧
    |(log_trade entry exit ty reason).profit_loss -
      (if ty = Dir.LONG then (exit - entry) * TRADE_AMOUNT
       else (entry - exit) * TRADE_AMOUNT)| ≤ 1 / 20000 := by
  cases ty with
  | LONG => exact ⟨round4_grid _, round4_close _⟩
  | SHORT => exact ⟨round4_grid _, round4_close _⟩

/-- Claim C5: `generate_summary` produces a summary whose total is the sum of
the profit_loss of all trades in the live log and whose count is their
number, appends it to the archive, and resets the live log to an empty
array; on an empty log the summary has total 0 and count 0 and the log is
still reset. -/
theorem generate_summary_spec (st : BotState) :
    (generate_summary st).2.1.total_profit_loss =
        (st.trade_log.map TradeRecord.profit_loss).sum ∧
    (generate_summary st).2.1.trade_count = st.trade_log.length ∧
    (generate_summary st).1.archive = st.archive ++ [(generate_summary st).2.1] ∧
    (generate_summary st).1.trade_log = [] ∧
    (generate_summary ⟨[], st.archive⟩).2.1.total_profit_loss = 0 ∧
    (generate_summary ⟨[], st.archive⟩).2.1.trade_count = 0 ∧
    (generate_summary ⟨[], st.archive⟩).1.trade_log = [] :=
  ⟨rfl, rfl, rfl, rfl, rfl, rfl, rfl⟩

/-- Claim C6: when the body of a `main` loop iteration raises an exception
with text `e`, the top-level handler appends a notification whose text
contains `e` and a fixed 10-second sleep, and the loop still continues to
its next iteration; no body outcome ever stops the loop. -/
theorem main_iter_crash_handling (effs : List Effect) (e : String) :
    main_iter (effs, some e) =
      (effs ++ [Effect.notify ("Bot crashed: " ++ e ++ ". Restarting..."),
                Effect.sleep 10], true) ∧
    (∃ pre suf, "Bot crashed: " ++ e ++ ". Restarting..." = pre ++ e ++ suf) ∧
    (∀ body, (main_iter body).2 = true) := by
  refine ⟨rfl, ⟨"Bot crashed: ", ". Restarting...", rfl⟩, ?_⟩
  intro body
  rcases body with ⟨effs2, exc⟩
  cases exc <;> rfl

/-! Helper lemmas about the monitoring loop's signal state. -/

theorem monitorTick_none_of_no_entry (high low : ℚ) (t : Option ℚ)
    (h : (monitorTick high low none t).2 = none) :
    (monitorTick high low none t).1 = none := by
  cases t with
  | none => rfl
  | some q =>
      simp only [monitorTick] at h ⊢
      by_cases hq : high < q
      · exfalso
        have hs : signalStep high low none q = some Dir.LONG := by
          simp [signalStep, hq]
        rw [hs] at h
        have hnr : ¬ (low < q ∧ q < high) := fun hc => absurd hq (lt_asymm hc.2)
        simp [entryDecision, hnr, hq] at h
      · by_cases hq2 : q < low
        · exfalso
          have hs : signalStep high low none q = some Dir.SHORT := by
            simp [signalStep, hq, hq2]
          rw [hs] at h
          have hnr : ¬ (low < q ∧ q < high) := fun hc => absurd hq2 (lt_asymm hc.1)
          simp [entryDecision, hnr, hq2] at h
        · simp [signalStep, hq, hq2]

theorem monitorRun_none_persists (high low : ℚ) :
    ∀ ps : List (Option ℚ), (monitorRun high low none ps).2 = none →
      (monitorRun high low none ps).1 = none := by
  intro ps
  induction ps with
  | nil => intro _; rfl
  | cons p ps ih =>
      intro h
      rcases htick : monitorTick high low none p with ⟨s, e⟩
      cases e with
      | some ev =>
          exfalso
          simp only [monitorRun, htick] at h
          exact Option.some_ne_none ev h
      | none =>
          have hs : s = none := by
            have h1 := monitorTick_none_of_no_entry high low p (by rw [htick])
            rw [htick] at h1
            exact h1
          subst hs
          simp only [monitorRun, htick] at h ⊢
          exact ih h

/-- Claim C9: on the very tick on which a breakout signal is first generated
from the WATCHING state (`price > high`, or `price < low`), the entry
branches fire in that same loop iteration at that same price (as a chase
entry), so a pending signal never survives into a later tick: whenever the
monitoring loop ends without an entry, its signal state is still `None`. -/
theorem signal_and_entry_same_tick (high low p : ℚ) :
    (high < p → monitorTick high low none (some p) =
      (some Dir.LONG, some ⟨Dir.LONG, p, low, EntryKind.chase⟩)) ∧
    (¬ high < p → p < low → monitorTick high low none (some p) =
      (some Dir.SHORT, some ⟨Dir.SHORT, p, high, EntryKind.chase⟩)) ∧
    (∀ ps : List (Option ℚ), (monitorRun high low none ps).2 = none →
      (monitorRun high low none ps).1 = none) := by
  refine ⟨?_, ?_, monitorRun_none_persists high low⟩
  · intro h
    have hnr : ¬ (low < p ∧ p < high) := fun hc => absurd h (lt_asymm hc.2)
    simp [monitorTick, signalStep, entryDecision, h, hnr]
  · intro h h2
    have hnr : ¬ (low < p ∧ p < high) := fun hc => absurd h2 (lt_asymm hc.1)
    simp [monitorTick, signalStep, entryDecision, h, h2, hnr]

/-- Witness for C9: with band high 110 / low 100, the first tick at price 112
generates the LONG signal and enters (as a chase at 112) in the same
iteration. -/
theorem signal_and_entry_same_tick_witness :
    monitorTick 110 100 none (some 112) =
      (some Dir.LONG, some ⟨Dir.LONG, 112, 100, EntryKind.chase⟩) :=
  (signal_and_entry_same_tick 110 100 112).1 (by norm_num)

/-- Claim C1, behaviour of the code at the claimed scenario: with band
high 110 / low 100 and observed prices 112 then 105, the loop enters a chase
LONG at 112 on the first tick; the retracement entry at 105 the claim
describes never happens, because the entry check runs in the same iteration
that generated the signal. -/
theorem retracement_scenario_enters_chase :
    monitorRun 110 100 none [some 112, some 105] =
      (some Dir.LONG, some ⟨Dir.LONG, 112, 100, EntryKind.chase⟩) := by decide

/-! Helper lemmas for the trailing stop and the initial stop-loss. -/

theorem entryDecision_stop (high low : ℚ) (s : Option Dir) (p : ℚ) (ev : EntryEvent)
    (h : entryDecision high low s p = some ev) :
    ev.stop = (match ev.dir with | Dir.LONG => low | Dir.SHORT => high) := by
  cases s with
  | none => exact absurd h (by simp [entryDecision])
  | some d =>
      cases d with
      | LONG =>
          simp only [entryDecision] at h
          split_ifs at h with h1 h2
          · obtain rfl := Option.some.inj h; rfl
          · obtain rfl := Option.some.inj h; rfl
      | SHORT =>
          simp only [entryDecision] at h
          split_ifs at h with h1 h2
          · obtain rfl := Option.some.inj h; rfl
          · obtain rfl := Option.some.inj h; rfl

theorem monitorTick_stop (high low : ℚ) (s : Option Dir) (t : Option ℚ) (ev : EntryEvent)
    (h : (monitorTick high low s t).2 = some ev) :
    ev.stop = (match ev.dir with | Dir.LONG => low | Dir.SHORT => high) := by
  cases t with
  | none => exact absurd h (by simp [monitorTick])
  | some q =>
      exact entryDecision_stop high low (signalStep high low s q) q ev
        (by simpa [monitorTick] using h)

theorem monitorRun_stop (high low : ℚ) :
    ∀ (ps : List (Option ℚ)) (s : Option Dir) (ev : EntryEvent),
      (monitorRun high low s ps).2 = some ev →
      ev.stop = (match ev.dir with | Dir.LONG => low | Dir.SHORT => high) := by
  intro ps
  induction ps with
  | nil => intro s ev h; simp [monitorRun] at h
  | cons p ps ih =>
      intro s ev h
      rcases htick : monitorTick high low s p with ⟨s2, e⟩
      cases e with
      | some ev2 =>
          simp only [monitorRun, Option.some.injEq, htick] at h
          subst h
          exact monitorTick_stop high low s p ev2 (by rw [htick])
      | none =>
          simp only [monitorRun, htick] at h
          exact ih s2 ev h

theorem trailingStep_long_mono (e st p : ℚ) : st ≤ (trailingStep e st Dir.LONG p).1 := by
  simp only [trailingStep]
  split_ifs <;> simp [le_max_iff]

theorem trailingStep_long_t1 (e st p : ℚ) (h : e * (101 / 100) < p) :
    e * (1005 / 1000) ≤ (trailingStep e st Dir.LONG p).1 := by
  simp only [trailingStep]
  split_ifs <;> simp [le_max_iff]

theorem trailingStep_long_t2 (e st p : ℚ) (h : e * (102 / 100) < p) :
    e * (101 / 100) ≤ (trailingStep e st Dir.LONG p).1 := by
  simp only [trailingStep]
  split_ifs <;> simp [le_max_iff]

theorem trailingStep_long_exit (e st p : ℚ) :
    (trailingStep e st Dir.LONG p).2 = true ↔ p < (trailingStep e st Dir.LONG p).1 := by
  simp only [trailingStep]
  exact decide_eq_true_iff

theorem trailing_run_long_mono (e : ℚ) :
    ∀ (ps : List (Option ℚ)) (st : ℚ), st ≤ (trailing_stop_loss e st Dir.LONG ps).1 := by
  intro ps
  induction ps with
  | nil => intro st; exact le_refl st
  | cons p ps ih =>
      intro st
      cases p with
      | none => exact ih st
      | some q =>
          rcases hstep : trailingStep e st Dir.LONG q with ⟨s2, b⟩
          have hmono : st ≤ s2 := by
            have h := trailingStep_long_mono e st q
            rw [hstep] at h
            exact h
          cases b with
          | true => simpa [trailing_stop_loss, hstep] using hmono
          | false =>
              simp only [trailing_stop_loss, hstep]
              exact le_trans hmono (ih s2)

theorem trailingStep_short_mono (e st p : ℚ) : (trailingStep e st Dir.SHORT p).1 ≤ st := by
  simp only [trailingStep]
  split_ifs <;> simp [min_le_iff]

theorem trailingStep_short_t1 (e st p : ℚ) (h : p < e * (99 / 100)) :
    (trailingStep e st Dir.SHORT p).1 ≤ e * (995 / 1000) := by
  simp only [trailingStep]
  split_ifs <;> simp [min_le_iff]

theorem trailingStep_short_t2 (e st p : ℚ) (h : p < e * (98 / 100)) :
    (trailingStep e st Dir.SHORT p).1 ≤ e * (99 / 100) := by
  simp only [trailingStep]
  split_ifs <;> simp [min_le_iff]

theorem trailingStep_short_exit (e st p : ℚ) :
    (trailingStep e st Dir.SHORT p).2 = true ↔ (trailingStep e st Dir.SHORT p).1 < p := by
  simp only [trailingStep]
  exact decide_eq_true_iff

theorem trailing_run_short_mono (e : ℚ) :
    ∀ (ps : List (Option ℚ)) (st : ℚ), (trailing_stop_loss e st Dir.SHORT ps).1 ≤ st := by
  intro ps
  induction ps with
  | nil => intro st; exact le_refl st
  | cons p ps ih =>
      intro st
      cases p with
      | none => exact ih st
      | some q =>
          rcases hstep : trailingStep e st Dir.SHORT q with ⟨s2, b⟩
          have hmono : s2 ≤ st := by
            have h := trailingStep_short_mono e st q
            rw [hstep] at h
            exact h
          cases b with
          | true => simpa [trailing_stop_loss, hstep] using hmono
          | false =>
              simp only [trailing_stop_loss, hstep]
              exact le_trans (ih s2) hmono

/-- Claim C2: every entry produced by the monitoring loop carries the
opposite band edge as its initial stop-loss (`low` for LONG, `high` for
SHORT), which `monitor_market` passes to `trailing_stop_loss`; each LONG
iteration tightens the stop with `max` to entry*1.005 once price exceeds
entry*1.01 and to entry*1.01 once price exceeds entry*1.02, never decreases
the stop across iterations, and exits exactly when price < stop; the SHORT
side mirrors this with the 0.99/0.995 and 0.98/0.99 thresholds, `min`-based
tightening, a never-increasing stop, and exit exactly when price > stop. -/
theorem initial_stop_and_trailing_ratchet :
    (∀ (high low : ℚ) (ps : List (Option ℚ)) (ev : EntryEvent),
      (monitorRun high low none ps).2 = some ev →
      ev.stop = (match ev.dir with | Dir.LONG => low | Dir.SHORT => high)) ∧
    (∀ e st p : ℚ, st ≤ (trailingStep e st Dir.LONG p).1) ∧
    (∀ e st p : ℚ, e * (101 / 100) < p →
      e * (1005 / 1000) ≤ (trailingStep e st Dir.LONG p).1) ∧
    (∀ e st p : ℚ, e * (102 / 100) < p →
      e * (101 / 100) ≤ (trailingStep e st Dir.LONG p).1) ∧
    (∀ e st p : ℚ,
      ((trailingStep e st Dir.LONG p).2 = true ↔ p < (trailingStep e st Dir.LONG p).1)) ∧
    (∀ (e st : ℚ) (ps : List (Option ℚ)), st ≤ (trailing_stop_loss e st Dir.LONG ps).1) ∧
    (∀ e st p : ℚ, (trailingStep e st Dir.SHORT p).1 ≤ st) ∧
    (∀ e st p : ℚ, p < e * (99 / 100) →
      (trailingStep e st Dir.SHORT p).1 ≤ e * (995 / 1000)) ∧
    (∀ e st p : ℚ, p < e * (98 / 100) →
      (trailingStep e st Dir.SHORT p).1 ≤ e * (99 / 100)) ∧
    (∀ e st p : ℚ,
      ((trailingStep e st Dir.SHORT p).2 = true ↔ (trailingStep e st Dir.SHORT p).1 < p)) ∧
    (∀ (e st : ℚ) (ps : List (Option ℚ)), (trailing_stop_loss e st Dir.SHORT ps).1 ≤ st) :=
  ⟨fun high low ps ev h => monitorRun_stop high low ps none ev h,
   trailingStep_long_mono,
   trailingStep_long_t1,
   trailingStep_long_t2,
   trailingStep_long_exit,
   fun e st ps => trailing_run_long_mono e ps st,
   trailingStep_short_mono,
   trailingStep_short_t1,
   trailingStep_short_t2,
   trailingStep_short_exit,
   fun e st ps => trailing_run_short_mono e ps st⟩

/-- Witness for C2 at concrete inputs: a LONG entry from the band
(110, 100) carries initial stop 100; at entry 100 the LONG stop tightens to
at least 100.5 once price 102 > 101 and to at least 101 once price 103 >
102; at entry 100 the SHORT stop tightens to at most 99.5 at price 98.5 and
to at most 99 at price 97. -/
theorem initial_stop_and_trailing_ratchet_witness :
    (⟨Dir.LONG, 112, 100, EntryKind.chase⟩ : EntryEvent).stop = (100 : ℚ) ∧
    (100 : ℚ) * (1005 / 1000) ≤ (trailingStep 100 99 Dir.LONG 102).1 ∧
    (100 : ℚ) * (101 / 100) ≤ (trailingStep 100 99 Dir.LONG 103).1 ∧
    (trailingStep 100 110 Dir.SHORT (197 / 2)).1 ≤ (100 : ℚ) * (995 / 1000) ∧
    (trailingStep 100 110 Dir.SHORT 97).1 ≤ (100 : ℚ) * (99 / 100) :=
  ⟨initial_stop_and_trailing_ratchet.1 110 100 [some 112]
      ⟨Dir.LONG, 112, 100, EntryKind.chase⟩ (by decide),
   initial_stop_and_trailing_ratchet.2.2.1 100 99 102 (by norm_num),
   initial_stop_and_trailing_ratchet.2.2.2.1 100 99 103 (by norm_num),
   initial_stop_and_trailing_ratchet.2.2.2.2.2.2.2.1 100 110 (197 / 2) (by norm_num),
   initial_stop_and_trailing_ratchet.2.2.2.2.2.2.2.2.1 100 110 97 (by norm_num)⟩

/-- Claim C7: data fetches make at most 3 attempts; when all 3 attempts fail
the candle fetch returns the empty list after three 5-second backoffs and the
price fetch returns `None`; a successful second attempt comes after exactly
one 5-second backoff; with no candles `monitor_market` skips the whole cycle
(no signal, no entry, no trade record); and a failed price fetch inside the
monitoring loop skips only that tick, leaving the signal state unchanged. -/
theorem fetch_retry_and_skip_behaviour :
    (∀ o : ℕ → Option (List Candle), (fetch_candles o).2.1 ≤ 3) ∧
    (∀ o : ℕ → Option (List Candle), (∀ i, i < 3 → o i = none) →
      fetch_candles o = ([], 3, [Effect.sleep 5, Effect.sleep 5, Effect.sleep 5])) ∧
    (∀ o : ℕ → Option ℚ, (∀ i, i < 3 → o i = none) →
      (get_current_price o).1 = none) ∧
    (∀ (o : ℕ → Option (List Candle)) (r : List Candle),
      o 0 = none → o 1 = some r → fetch_candles o = (r, 2, [Effect.sleep 5])) ∧
    (∀ sT tT : List (Option ℚ), monitor_market [] sT tT = (none, [])) ∧
    (∀ (high low : ℚ) (s : Option Dir) (ps : List (Option ℚ)),
      monitorRun high low s (none :: ps) = monitorRun high low s ps) := by
  refine ⟨?_, ?_, ?_, ?_, ?_, ?_⟩
  · intro o
    cases h0 : o 0 with
    | some r => simp [fetch_candles, h0]
    | none =>
        cases h1 : o 1 with
        | some r => simp [fetch_candles, h0, h1]
        | none =>
            cases h2 : o 2 with
            | some r => simp [fetch_candles, h0, h1, h2]
            | none => simp [fetch_candles, h0, h1, h2]
  · intro o h
    simp [fetch_candles, h 0 (by norm_num), h 1 (by norm_num), h 2 (by norm_num)]
  · intro o h
    simp [get_current_price, h 0 (by norm_num), h 1 (by norm_num), h 2 (by norm_num)]
  · intro o r h0 h1
    simp [fetch_candles, h0, h1]
  · intro sT tT
    rfl
  · intro high low s ps
    rfl

/-- Witness for C7: with an oracle that always fails, the candle fetch makes
its 3 attempts, sleeps 5 seconds after each, and returns the empty list, and
the price fetch returns `None`. -/
theorem fetch_retry_and_skip_behaviour_witness :
    fetch_candles (fun _ => none) =
      ([], 3, [Effect.sleep 5, Effect.sleep 5, Effect.sleep 5]) ∧
    (get_current_price (fun _ => none)).1 = none :=
  ⟨fetch_retry_and_skip_behaviour.2.1 (fun _ => none) (fun _ _ => rfl),
   fetch_retry_and_skip_behaviour.2.2.1 (fun _ => none) (fun _ _ => rfl)⟩

/-- Claim C8: one `monitor_market` cycle appends at most one trade record,
and when no position was entered (no entry event) it appends none — one
band/signal cycle maps to at most one entered position and one trade. -/
theorem at_most_one_trade_per_cycle (candles : List Candle) (sT tT : List (Option ℚ)) :
    (monitor_market candles sT tT).2.length ≤ 1 ∧
    ((monitor_market candles sT tT).1 = none → (monitor_market candles sT tT).2 = []) := by
  unfold monitor_market
  cases hgl : get_high_low candles with
  | mk o1 o2 =>
      cases o1 with
      | none => exact ⟨by simp, fun _ => rfl⟩
      | some hi =>
          cases o2 with
          | none => exact ⟨by simp, fun _ => rfl⟩
          | some lo =>
              cases hrun : monitorRun hi lo none sT with
              | mk s oev =>
                  cases oev with
                  | none => exact ⟨by simp [hrun], fun _ => by simp [hrun]⟩
                  | some ev =>
                      cases htr : trailing_stop_loss ev.price ev.stop ev.dir tT with
                      | mk fs orec =>
                          cases orec with
                          | none =>
                              refine ⟨by simp [hrun, htr], fun hx => ?_⟩
                              simp [hrun, htr] at hx
                          | some r0 =>
                              refine ⟨by simp [hrun, htr], fun hx => ?_⟩
                              simp [hrun, htr] at hx

/-- Witness for C8 on a concrete cycle with no breakout (band (110, 100),
single tick at 105): at most one record, and none since no entry occurred. -/
theorem at_most_one_trade_per_cycle_witness :
    (monitor_market [⟨0, 105, 110, 100, 105, 1⟩] [some 105] []).2.length ≤ 1 ∧
    (monitor_market [⟨0, 105, 110, 100, 105, 1⟩] [some 105] []).2 = [] :=
  ⟨(at_most_one_trade_per_cycle [⟨0, 105, 110, 100, 105, 1⟩] [some 105] []).1,
   (at_most_one_trade_per_cycle [⟨0, 105, 110, 100, 105, 1⟩] [some 105] []).2 (by decide)⟩
